import Mathlib

/-!  Verification development for the job metrics exporter (`metrics.go`).

Shallow embedding conventions:
* Go strings are Lean `String`s; every Go string operation is re-implemented
  over the underlying character list with structural recursion, so all
  definitions evaluate by kernel reduction.
* Go `float64` values are modelled as exact rationals; every numeric value
  exercised here is a small integer, exactly representable in `float64`,
  so no rounding behaviour is lost.
* The Prometheus gauge vectors are modelled as one association list from
  (metric name, label values) to the current value, with overwrite-on-set
  semantics (`GaugeVec.With(...).Set(...)`).
* External effects (the two `nvidia-smi` invocations, the cgroup file tree,
  the `/proc/<pid>/io` files) enter as explicit parameters: an `Option String`
  for each command output (`none` = non-zero exit) and functions/structures
  describing file contents (`none` = open/stat failure).
-/

namespace JobMetrics

/-- Characters recognised by Go `unicode.IsSpace` in the ASCII range
(the Latin-1 code points U+0085 and U+00A0 are omitted; no input
considered here is non-ASCII). -/
def goIsSpace (c : Char) : Bool :=
  c = ' ' || c = '\t' || c = '\n' || c = '\x0b' || c = '\x0c' || c = '\r'

/-- `charsStartWith pre l` tests whether `pre` starts the list `l`
(Go `strings.HasPrefix` over character lists). -/
def charsStartWith : List Char → List Char → Bool
  | [], _ => true
  | _ :: _, [] => false
  | p :: ps, x :: xs => p == x && charsStartWith ps xs

/-- Go `strings.HasPrefix pre` applied to `s`. -/
def goStartsWith (s pre : String) : Bool :=
  charsStartWith pre.data s.data

/-- Go `strings.TrimPrefix`: drop `marker` from the front of `s` when present. -/
def goDropStart (s marker : String) : String :=
  if goStartsWith s marker then ⟨s.data.drop marker.data.length⟩ else s

/-- Strip the characters satisfying `p` from both ends of a character list. -/
def trimCharsWhere (p : Char → Bool) (l : List Char) : List Char :=
  ((l.dropWhile p).reverse.dropWhile p).reverse

/-- Go `strings.Trim s cutset`: strip any leading and trailing characters
belonging to `cutset`. -/
def goTrim (s cutset : String) : String :=
  ⟨trimCharsWhere (fun c => cutset.data.contains c) s.data⟩

/-- Go `strings.TrimSpace`. -/
def goTrimSpace (s : String) : String :=
  ⟨trimCharsWhere goIsSpace s.data⟩

/-- Worker for Go `strings.Split` (non-empty separator): fuel-indexed so the
recursion is structural; callers pass enough fuel to consume the input. -/
def splitCharsFuel (sep : List Char) : Nat → List Char → List Char → List (List Char)
  | 0, acc, l => [acc.reverse ++ l]
  | fuel + 1, acc, l =>
    match l with
    | [] => [acc.reverse]
    | x :: xs =>
      if charsStartWith sep (x :: xs) then
        acc.reverse :: splitCharsFuel sep fuel [] ((x :: xs).drop sep.length)
      else
        splitCharsFuel sep fuel (x :: acc) xs

/-- Go `strings.Split s sep` for a non-empty separator. -/
def splitGo (sep s : String) : List String :=
  (splitCharsFuel sep.data (s.data.length + 1) [] s.data).map fun cs => ⟨cs⟩

/-- Worker for Go `strings.Fields`: split around runs of white space,
producing only the non-empty maximal runs of non-space characters. -/
def fieldsChars : List Char → List Char → List (List Char)
  | acc, [] =>
    match acc with
    | [] => []
    | _ => [acc.reverse]
  | acc, c :: cs =>
    if goIsSpace c then
      match acc with
      | [] => fieldsChars [] cs
      | _ => acc.reverse :: fieldsChars [] cs
    else fieldsChars (c :: acc) cs

/-- Go `strings.Fields`. -/
def goFields (s : String) : List String :=
  (fieldsChars [] s.data).map fun cs => ⟨cs⟩

/-- Drop one trailing carriage return, as `bufio.ScanLines` does. -/
def stripCR (s : String) : String :=
  match s.data.reverse with
  | '\r' :: rest => ⟨rest.reverse⟩
  | _ => s

/-- Lines produced by a `bufio.Scanner` with `ScanLines`: newline-separated,
the empty token after a final newline is not emitted, trailing `\r` stripped. -/
def goLines (s : String) : List String :=
  let parts := splitGo "\n" s
  let parts := if parts.getLast? == some "" then parts.dropLast else parts
  parts.map stripCR

/-- Decimal digit test. -/
def isDigitChar (c : Char) : Bool := '0' ≤ c && c ≤ '9'

/-- Value of a digit string, most significant first. -/
def digitsVal (l : List Char) : Nat :=
  l.foldl (fun n c => n * 10 + (c.toNat - '0'.toNat)) 0

/-- Exponent suffix of a Go float literal: either nothing, or `e`/`E`,
an optional sign and at least one digit, consuming the whole rest. -/
def parseExpChars (m : ℚ) : List Char → Option ℚ
  | [] => some m
  | c :: rest =>
    if c = 'e' || c = 'E' then
      let signAndDigits : Bool × List Char :=
        match rest with
        | '+' :: r => (false, r)
        | '-' :: r => (true, r)
        | r => (false, r)
      let ds := signAndDigits.2
      let expDigits := ds.takeWhile isDigitChar
      if expDigits.isEmpty then none
      else if (ds.dropWhile isDigitChar).isEmpty then
        some (if signAndDigits.1 then m / 10 ^ digitsVal expDigits
              else m * 10 ^ digitsVal expDigits)
      else none
    else none

/-- Unsigned decimal float: digits, optional `.` and fraction digits (at least
one digit overall), optional exponent. -/
def parseUnsignedChars (l : List Char) : Option ℚ :=
  let intPart := l.takeWhile isDigitChar
  let rest1 := l.dropWhile isDigitChar
  match rest1 with
  | '.' :: rest2 =>
    let fracPart := rest2.takeWhile isDigitChar
    let rest3 := rest2.dropWhile isDigitChar
    if intPart.isEmpty && fracPart.isEmpty then none
    else parseExpChars ((digitsVal (intPart ++ fracPart) : ℚ) / 10 ^ fracPart.length) rest3
  | _ =>
    if intPart.isEmpty then none
    else parseExpChars (digitsVal intPart : ℚ) rest1

/-- Model of Go `strconv.ParseFloat(s, 64)` restricted to plain decimal
syntax (optional sign, digits, optional fraction, optional exponent),
returning the exact rational value. The hexadecimal, `Inf`/`NaN` and
digit-underscore forms accepted by Go never occur in the inputs the
exporter handles and are modelled as parse failures along with every
other non-decimal string, which is the rejection behaviour the code
relies on. -/
def parseGoFloat (s : String) : Option ℚ :=
  match s.data with
  | [] => none
  | '+' :: rest => parseUnsignedChars rest
  | '-' :: rest => (parseUnsignedChars rest).map (fun q => -q)
  | l => parseUnsignedChars l

/-- The four gauge vectors registered by `init()` in `metrics.go`. -/
inductive MetricName
  | gpuUtilization
  | gpuMemoryUsageBytes
  | ioReadBytes
  | ioWriteBytes
deriving DecidableEq, Repr

/-- A (metric name, label values) key. `dim` is the first label value
(`gpu_id` for the GPU gauges, `pid` for the IO gauges) and `job` is the
`job_id` label value. -/
structure MetricKey where
  name : MetricName
  dim : String
  job : String
deriving DecidableEq, Repr

/-- One `With(labels).Set(value)` call. -/
structure MetricWrite where
  key : MetricKey
  value : ℚ
deriving DecidableEq, Repr

/-- The registry contents: latest value per (name, labels) key. -/
abbrev MetricStore := List (MetricKey × ℚ)

/-- `Set`: overwrite the entry for `k` if present, otherwise append it. -/
def setMetric : MetricStore → MetricKey → ℚ → MetricStore
  | [], k, v => [(k, v)]
  | (k0, v0) :: rest, k, v =>
    if k0 = k then (k, v) :: rest else (k0, v0) :: setMetric rest k v

/-- Apply a list of writes in order. -/
def applyWrites (s : MetricStore) (ws : List MetricWrite) : MetricStore :=
  ws.foldl (fun st w => setMetric st w.key w.value) s

/-- The store seeded by `init()`: each gauge gets one zero-valued
`("none", "none")` entry, in registration order. -/
def initStore : MetricStore :=
  applyWrites []
    [⟨⟨.gpuMemoryUsageBytes, "none", "none"⟩, 0⟩,
     ⟨⟨.gpuUtilization, "none", "none"⟩, 0⟩,
     ⟨⟨.ioReadBytes, "none", "none"⟩, 0⟩,
     ⟨⟨.ioWriteBytes, "none", "none"⟩, 0⟩]

/-- The (UUID, index) pair of a per-device query row, when the row has the
expected four comma-space separated fields (`gpu_uuid, index, name,
utilization.gpu`); `none` for any other field count. -/
def rowUUIDIndex (line : String) : Option (String × String) :=
  match splitGo ", " line with
  | [uuid, index, _name, _util] => some (uuid, index)
  | _ => none

/-- One step of building `gpuUUIDToIndex`: a well-formed row overwrites the
map entry for its UUID, any other row leaves the map unchanged. -/
def uuidInsert (m : String → Option String) (line : String) : String → Option String :=
  match rowUUIDIndex line with
  | some (uuid, index) => fun x => if x = uuid then some index else m x
  | none => m

/-- The `gpuUUIDToIndex` map built from the per-device query lines. -/
def buildUUIDToIndex (lines : List String) : String → Option String :=
  lines.foldl uuidInsert (fun _ => none)

/-- Writes produced by one compute-apps line (`pid, used_gpu_memory,
gpu_uuid`): parse the memory after `strings.Trim(_, " MiB")`, look the UUID up
in the device map, resolve the job, and publish MiB converted to bytes;
each failure abandons just this line. -/
def computeLineWrites (uuidToIndex : String → Option String)
    (resolver : String → Option String) (line : String) : List MetricWrite :=
  match splitGo ", " line with
  | [pid, mem, uuid] =>
    match parseGoFloat (goTrim mem " MiB") with
    | none => []
    | some usedMemory =>
      match uuidToIndex uuid with
      | none => []
      | some index =>
        match resolver pid with
        | none => []
        | some jobID =>
          [⟨⟨.gpuMemoryUsageBytes, index, jobID⟩, usedMemory * 1024 * 1024⟩]
  | _ => []

/-- Writes of the whole compute-apps batch, line by line. -/
def computeWrites (m r : String → Option String) : List String → List MetricWrite
  | [] => []
  | line :: rest => computeLineWrites m r line ++ computeWrites m r rest

/-- `collectGPUMetrics` with the job resolver abstracted: if either query
failed (`none`), return with no writes; otherwise build the UUID map from the
first output and process the second. -/
def collectGPUMetricsWith (resolver : String → Option String)
    (gpuInfoOutput computeAppsOutput : Option String) : List MetricWrite :=
  match gpuInfoOutput with
  | none => []
  | some gpuInfo =>
    match computeAppsOutput with
    | none => []
    | some computeApps =>
      let gpuInfoLines := splitGo "\n" (goTrimSpace gpuInfo)
      let uuidToIndex := buildUUIDToIndex gpuInfoLines
      let computeAppsLines := splitGo "\n" (goTrimSpace computeApps)
      computeWrites uuidToIndex resolver computeAppsLines

/-- A job directory under a uid directory: its name (e.g. `job_42`) and
the contents of its `cgroup.procs` file (`none` = missing/unreadable). -/
structure JobDir where
  name : String
  cgroupProcs : Option String
deriving Repr

/-- A directory entry under the Slurm cgroup base path: its name
(e.g. `uid_1000`) and its entries (`none` = open/read failure). -/
structure UidDir where
  name : String
  jobs : Option (List JobDir)
deriving Repr

/-- The listing of `/sys/fs/cgroup/cpu/slurm`. -/
abbrev CgroupTree := List UidDir

/-- Scan the job directories of one uid directory for `pid`
(inner loop of `getJobIDFromPID`): the first `job_*` directory whose
`cgroup.procs` has a line equal to `pid` yields its name with the
`job_` marker removed. -/
def findPidJob (pid : String) : List JobDir → Option String
  | [] => none
  | jd :: rest =>
    if goStartsWith jd.name "job_" then
      match jd.cgroupProcs with
      | none => findPidJob pid rest
      | some content =>
        if (goLines content).contains pid then some (goDropStart jd.name "job_")
        else findPidJob pid rest
    else findPidJob pid rest

/-- Outer loop of `getJobIDFromPID` over the `uid_*` entries. -/
def findPidUid (pid : String) : CgroupTree → Option String
  | [] => none
  | ud :: rest =>
    if goStartsWith ud.name "uid_" then
      match ud.jobs with
      | none => findPidUid pid rest
      | some jds =>
        match findPidJob pid jds with
        | some j => some j
        | none => findPidUid pid rest
    else findPidUid pid rest

/-- `getJobIDFromPID` over an explicit cgroup tree: the job id (with the
`job_` marker stripped) of the first job directory containing `pid`,
or `none` for the not-found error. -/
def getJobIDFromPID (tree : CgroupTree) (pid : String) : Option String :=
  findPidUid pid tree

/-- `collectGPUMetrics` proper: the resolver is `getJobIDFromPID` on the
host's cgroup tree. -/
def collectGPUMetrics (tree : CgroupTree) (gpuInfoOutput computeAppsOutput : Option String) :
    List MetricWrite :=
  collectGPUMetricsWith (getJobIDFromPID tree) gpuInfoOutput computeAppsOutput

/-- Writes of one line of a `/proc/<pid>/io` file: `key: value` lines keep
only the `read_bytes` and `write_bytes` keys; the `job_id` label is the raw
job directory name `jobEntry`. -/
def ioLineWrites (pid jobEntry line : String) : List MetricWrite :=
  match splitGo ":" line with
  | [k, v] =>
    let key := goTrimSpace k
    match parseGoFloat (goTrimSpace v) with
    | none => []
    | some value =>
      if key = "read_bytes" then [⟨⟨.ioReadBytes, pid, jobEntry⟩, value⟩]
      else if key = "write_bytes" then [⟨⟨.ioWriteBytes, pid, jobEntry⟩, value⟩]
      else []
  | _ => []

/-- Writes of the split lines of one `/proc/<pid>/io` file. -/
def ioContentWrites (pid jobEntry : String) : List String → List MetricWrite
  | [] => []
  | line :: rest => ioLineWrites pid jobEntry line ++ ioContentWrites pid jobEntry rest

/-- Writes for one pid of a job: read `/proc/<pid>/io` (`none` = read error,
skip the pid) and process its `strings.Split(content, "\n")` lines. -/
def pidIOWrites (ioFiles : String → Option String) (jobEntry pid : String) : List MetricWrite :=
  match ioFiles pid with
  | none => []
  | some content => ioContentWrites pid jobEntry (splitGo "\n" content)

/-- Writes for all pids of a job. -/
def pidsIOWrites (ioFiles : String → Option String) (jobEntry : String) :
    List String → List MetricWrite
  | [] => []
  | pid :: rest => pidIOWrites ioFiles jobEntry pid ++ pidsIOWrites ioFiles jobEntry rest

/-- Writes of one job directory in `collectIOMetrics`: non-`job_*` entries are
skipped; a missing/unreadable `cgroup.procs` skips the job; a procs file with
zero whitespace-separated fields publishes the two zero entries under the
sentinel pid `"none"`; otherwise each pid is sampled. Note the `job_id` label
is the raw directory name `jd.name` (the `job_` marker is NOT stripped here). -/
def jobIOWrites (ioFiles : String → Option String) (jd : JobDir) : List MetricWrite :=
  if goStartsWith jd.name "job_" then
    match jd.cgroupProcs with
    | none => []
    | some pidsContent =>
      match goFields pidsContent with
      | [] =>
        [⟨⟨.ioReadBytes, "none", jd.name⟩, 0⟩, ⟨⟨.ioWriteBytes, "none", jd.name⟩, 0⟩]
      | ps => pidsIOWrites ioFiles jd.name ps
  else []

/-- Writes of a list of job directories. -/
def jobsIOWrites (ioFiles : String → Option String) : List JobDir → List MetricWrite
  | [] => []
  | jd :: rest => jobIOWrites ioFiles jd ++ jobsIOWrites ioFiles rest

/-- Writes of one base-directory entry: non-`uid_*` entries and unreadable
uid directories are skipped. -/
def uidIOWrites (ioFiles : String → Option String) (ud : UidDir) : List MetricWrite :=
  if goStartsWith ud.name "uid_" then
    match ud.jobs with
    | none => []
    | some jds => jobsIOWrites ioFiles jds
  else []

/-- Writes of all base-directory entries. -/
def uidsIOWrites (ioFiles : String → Option String) : CgroupTree → List MetricWrite
  | [] => []
  | ud :: rest => uidIOWrites ioFiles ud ++ uidsIOWrites ioFiles rest

/-- `collectIOMetrics` over an explicit cgroup tree and `/proc/<pid>/io`
contents. -/
def collectIOMetrics (tree : CgroupTree) (ioFiles : String → Option String) :
    List MetricWrite :=
  uidsIOWrites ioFiles tree

/-- A compute-apps row the code skips on its own: wrong field count, or a
used-memory field that does not parse after `strings.Trim(_, " MiB")`. -/
def malformedComputeRow (line : String) : Bool :=
  match splitGo ", " line with
  | [_pid, mem, _uuid] => (parseGoFloat (goTrim mem " MiB")).isNone
  | _ => true

/-- Read one entry of the registry (the exporter's view of a gauge value). -/
def lookupMetric : MetricStore → MetricKey → Option ℚ
  | [], _ => none
  | (k0, v0) :: rest, k => if k0 = k then some v0 else lookupMetric rest k

/-- Fixture: a cgroup tree with a single job `job_42` (under `uid_0`) whose
`cgroup.procs` contains exactly pid 1234. -/
def c1Tree : CgroupTree := [⟨"uid_0", some [⟨"job_42", some "1234\n"⟩]⟩]

/-- Fixture: `/proc/1234/io` with read and write counters. -/
def c1IOFiles : String → Option String :=
  fun p => if p = "1234" then some "read_bytes: 4096\nwrite_bytes: 0\n" else none

/-- Batch processing of compute-apps lines distributes over concatenation:
each line contributes its writes independently. -/
theorem computeWrites_append (m r : String → Option String) (xs ys : List String) :
    computeWrites m r (xs ++ ys) = computeWrites m r xs ++ computeWrites m r ys := by
  induction xs with
  | nil => rfl
  | cons l t ih => simp [computeWrites, ih]

/-- A malformed compute-apps row produces no writes of its own. -/
theorem computeLineWrites_of_malformed (m r : String → Option String) (line : String)
    (h : malformedComputeRow line = true) :
    computeLineWrites m r line = [] := by
  rcases hs : splitGo ", " line with _ | ⟨pid, _ | ⟨mem, _ | ⟨uuid, _ | ⟨e, rest⟩⟩⟩⟩
  · simp only [computeLineWrites, hs]
  · simp only [computeLineWrites, hs]
  · simp only [computeLineWrites, hs]
  · simp only [malformedComputeRow, hs] at h
    rw [Option.isNone_iff_eq_none] at h
    simp only [computeLineWrites, hs, h]
  · simp only [computeLineWrites, hs]

/-- Every write of a compute-apps line carries the memory-usage metric name. -/
theorem computeLineWrites_name (m r : String → Option String) (line : String) :
    (computeLineWrites m r line).all
      (fun w => w.key.name == MetricName.gpuMemoryUsageBytes) = true := by
  unfold computeLineWrites
  split
  · split
    · rfl
    · split
      · rfl
      · split
        · rfl
        · rfl
  · rfl

/-- Every write of a compute-apps batch carries the memory-usage metric name. -/
theorem computeWrites_name (m r : String → Option String) (lines : List String) :
    (computeWrites m r lines).all
      (fun w => w.key.name == MetricName.gpuMemoryUsageBytes) = true := by
  induction lines with
  | nil => rfl
  | cons l t ih =>
    simp only [computeWrites, List.all_append, Bool.and_eq_true]
    exact ⟨computeLineWrites_name m r l, ih⟩

/-- If no device row carries UUID `u`, folding the device rows into the map
leaves the entry for `u` as it was. -/
theorem buildUUIDToIndex_lookup_none (u : String) :
    ∀ (lines : List String) (m0 : String → Option String),
      (∀ l ∈ lines, ∀ p : String × String, rowUUIDIndex l = some p → p.1 ≠ u) →
      lines.foldl uuidInsert m0 u = m0 u := by
  intro lines
  induction lines with
  | nil => intro m0 _; rfl
  | cons l t ih =>
    intro m0 h
    rw [List.foldl_cons, ih _ (fun l' hl' => h l' (List.mem_cons_of_mem _ hl'))]
    have hne := h l (List.mem_cons_self l t)
    cases hrow : rowUUIDIndex l with
    | none => simp only [uuidInsert, hrow]
    | some p =>
      obtain ⟨uuid, index⟩ := p
      simp only [uuidInsert, hrow]
      rw [if_neg (fun he : u = uuid => (hne (uuid, index) hrow) he.symm)]

/-- If every device row carrying UUID `u` assigns it index `idx`, and either
some such row exists or the map already holds `idx` for `u`, the folded map
resolves `u` to `idx`. -/
theorem buildUUIDToIndex_lookup_some (u idx : String) :
    ∀ (lines : List String) (m0 : String → Option String),
      (∀ l ∈ lines, ∀ i2 : String, rowUUIDIndex l = some (u, i2) → i2 = idx) →
      ((∃ l ∈ lines, rowUUIDIndex l = some (u, idx)) ∨ m0 u = some idx) →
      lines.foldl uuidInsert m0 u = some idx := by
  intro lines
  induction lines with
  | nil =>
    intro m0 _ h
    rcases h with ⟨l, hl, _⟩ | hm
    · exact absurd hl (List.not_mem_nil l)
    · exact hm
  | cons l t ih =>
    intro m0 hall h
    rw [List.foldl_cons]
    refine ih _ (fun l' hl' => hall l' (List.mem_cons_of_mem _ hl')) ?_
    cases hrow : rowUUIDIndex l with
    | none =>
      rcases h with ⟨l', hl', hrow'⟩ | hm
      · rcases List.mem_cons.mp hl' with rfl | hmem
        · rw [hrow'] at hrow
          exact absurd hrow (by simp)
        · exact Or.inl ⟨l', hmem, hrow'⟩
      · refine Or.inr ?_
        simp only [uuidInsert, hrow]
        exact hm
    | some p =>
      obtain ⟨uuid, index⟩ := p
      by_cases hu : uuid = u
      · subst hu
        have hidx : index = idx := hall l (List.mem_cons_self l t) index hrow
        subst hidx
        refine Or.inr ?_
        simp only [uuidInsert, hrow]
        simp
      · rcases h with ⟨l', hl', hrow'⟩ | hm
        · rcases List.mem_cons.mp hl' with rfl | hmem
          · rw [hrow'] at hrow
            exact absurd (congrArg Prod.fst (Option.some.inj hrow)).symm hu
          · exact Or.inl ⟨l', hmem, hrow'⟩
        · refine Or.inr ?_
          simp only [uuidInsert, hrow]
          rw [if_neg (fun he : u = uuid => hu he.symm)]
          exact hm

/-- C1: the claim that the accelerator sample and the I/O sample of one
process are published under the same JobID label fails on the code.  With pid
1234 living in `uid_0/job_42`, `getJobIDFromPID` strips the `job_` marker, so
the accelerator sample is labelled `job_id = "42"`, while `collectIOMetrics`
labels the same process's I/O samples with the raw directory name
`job_id = "job_42"`; the two labels differ. -/
theorem job_label_divergence_gpu_vs_io :
    getJobIDFromPID c1Tree "1234" = some "42" ∧
    collectGPUMetrics c1Tree (some "gpu-uuid-1, 0, GPUX, 37")
        (some "1234, 512 MiB, gpu-uuid-1")
      = [⟨⟨.gpuMemoryUsageBytes, "0", "42"⟩, 536870912⟩] ∧
    collectIOMetrics c1Tree c1IOFiles
      = [⟨⟨.ioReadBytes, "1234", "job_42"⟩, 4096⟩,
         ⟨⟨.ioWriteBytes, "1234", "job_42"⟩, 0⟩] ∧
    ("42" : String) ≠ "job_42" :=
  ⟨by with_unfolding_all rfl, by with_unfolding_all rfl,
   by with_unfolding_all rfl, by decide⟩

/-- C2 counterexample: one well-formed device row with index `"0"` and zero
attributed processes (empty compute-apps output); after a full collection
pass (accelerator step then I/O step) the registry holds NO `gpu_utilization`
entry for device `"0"` — the only utilization entry is the startup
`("none", "none")` placeholder, and no entry at all carries the label `"0"`. -/
theorem idle_device_utilization_missing :
    collectGPUMetrics [] (some "gpu-uuid-1, 0, GPUX, 37") (some "") = [] ∧
    (applyWrites (applyWrites initStore
          (collectGPUMetrics [] (some "gpu-uuid-1, 0, GPUX, 37") (some "")))
        (collectIOMetrics [] (fun _ => none))).filter
        (fun e => e.1.name == MetricName.gpuUtilization)
      = [(⟨.gpuUtilization, "none", "none"⟩, 0)] ∧
    (applyWrites (applyWrites initStore
          (collectGPUMetrics [] (some "gpu-uuid-1, 0, GPUX, 37") (some "")))
        (collectIOMetrics [] (fun _ => none))).filter
        (fun e => e.1.dim == "0")
      = [] :=
  ⟨by with_unfolding_all rfl, by with_unfolding_all rfl, by with_unfolding_all rfl⟩

/-- C2 amended: the accelerator step never publishes any `gpu_utilization`
sample — every write it produces carries the `gpu_memory_usage_bytes` name
(the utilization field of the device query is read into the UUID map step and
discarded) — so the only utilization entry the registry ever holds is the
zero-valued `("none", "none")` placeholder seeded at startup. -/
theorem gpu_writes_only_memory_metric (resolver : String → Option String)
    (g c : Option String) :
    (collectGPUMetricsWith resolver g c).all
        (fun w => w.key.name == MetricName.gpuMemoryUsageBytes) = true ∧
    lookupMetric initStore ⟨.gpuUtilization, "none", "none"⟩ = some 0 := by
  refine ⟨?_, by with_unfolding_all rfl⟩
  unfold collectGPUMetricsWith
  cases g with
  | none => rfl
  | some gs =>
    cases c with
    | none => rfl
    | some cs => exact computeWrites_name _ _ _

/-- C3: a process-memory row whose UUID matches the device rows is published
under `gpu_id` equal to that device's index (provided its memory field parses
and its pid resolves to a job), and a row whose UUID matches no device row
produces no write at all. -/
theorem uuid_join_uses_device_index :
    (∀ (deviceLines : List String) (resolver : String → Option String)
        (line pid mem uuid idx jobID : String) (q : ℚ),
        splitGo ", " line = [pid, mem, uuid] →
        parseGoFloat (goTrim mem " MiB") = some q →
        (∃ dl ∈ deviceLines, rowUUIDIndex dl = some (uuid, idx)) →
        (∀ dl ∈ deviceLines, ∀ i2 : String, rowUUIDIndex dl = some (uuid, i2) → i2 = idx) →
        resolver pid = some jobID →
        computeLineWrites (buildUUIDToIndex deviceLines) resolver line
          = [⟨⟨.gpuMemoryUsageBytes, idx, jobID⟩, q * 1024 * 1024⟩]) ∧
    (∀ (deviceLines : List String) (resolver : String → Option String)
        (line pid mem uuid : String),
        splitGo ", " line = [pid, mem, uuid] →
        (∀ dl ∈ deviceLines, ∀ p : String × String, rowUUIDIndex dl = some p → p.1 ≠ uuid) →
        computeLineWrites (buildUUIDToIndex deviceLines) resolver line = []) := by
  constructor
  · intro deviceLines resolver line pid mem uuid idx jobID q hsplit hparse hex hall hres
    have hmap : buildUUIDToIndex deviceLines uuid = some idx := by
      unfold buildUUIDToIndex
      exact buildUUIDToIndex_lookup_some uuid idx deviceLines _ hall (Or.inl hex)
    simp only [computeLineWrites, hsplit, hparse, hmap, hres]
  · intro deviceLines resolver line pid mem uuid hsplit hnone
    have hmap : buildUUIDToIndex deviceLines uuid = none := by
      unfold buildUUIDToIndex
      exact buildUUIDToIndex_lookup_none uuid deviceLines _ hnone
    cases hp : parseGoFloat (goTrim mem " MiB") with
    | none => simp only [computeLineWrites, hsplit, hp]
    | some q => simp only [computeLineWrites, hsplit, hp, hmap]

/-- C3 witness: on the concrete device row `gpu-uuid-1, 0, GPUX, 37`, the
matched row `1234, 512 MiB, gpu-uuid-1` is published under `gpu_id = "0"`,
and the unmatched row `7, 8 MiB, gpu-uuid-2` is dropped. -/
theorem uuid_join_uses_device_index_checked :
    computeLineWrites (buildUUIDToIndex ["gpu-uuid-1, 0, GPUX, 37"])
        (fun p => if p = "1234" then some "42" else none) "1234, 512 MiB, gpu-uuid-1"
      = [⟨⟨.gpuMemoryUsageBytes, "0", "42"⟩, (512 : ℚ) * 1024 * 1024⟩] ∧
    computeLineWrites (buildUUIDToIndex ["gpu-uuid-1, 0, GPUX, 37"])
        (fun p => if p = "1234" then some "42" else none) "7, 8 MiB, gpu-uuid-2"
      = [] := by
  constructor
  · refine uuid_join_uses_device_index.1 ["gpu-uuid-1, 0, GPUX, 37"] _ _
      "1234" "512 MiB" "gpu-uuid-1" "0" "42" 512
      (by with_unfolding_all rfl) (by with_unfolding_all rfl)
      ⟨"gpu-uuid-1, 0, GPUX, 37", List.mem_singleton.mpr rfl, by with_unfolding_all rfl⟩
      ?_ (by with_unfolding_all rfl)
    intro dl hdl i2 h
    rcases List.mem_singleton.mp hdl with rfl
    rw [show rowUUIDIndex "gpu-uuid-1, 0, GPUX, 37" = some ("gpu-uuid-1", "0") from
      by with_unfolding_all rfl] at h
    exact (congrArg Prod.snd (Option.some.inj h)).symm
  · refine uuid_join_uses_device_index.2 ["gpu-uuid-1, 0, GPUX, 37"] _ _
      "7" "8 MiB" "gpu-uuid-2" (by with_unfolding_all rfl) ?_
    intro dl hdl p h
    rcases List.mem_singleton.mp hdl with rfl
    rw [show rowUUIDIndex "gpu-uuid-1, 0, GPUX, 37" = some ("gpu-uuid-1", "0") from
      by with_unfolding_all rfl] at h
    rcases Option.some.inj h with rfl
    decide

/-- C4: with device row `gpu-uuid-1, 0, "GPUX", 37`, compute-apps row
`1234, 512 MiB, gpu-uuid-1` and a resolver mapping 1234 to "42", the pass
publishes exactly `gpu_memory_usage_bytes{gpu_id="0", job_id="42"}` with value
536870912 (512 MiB in bytes), and the registry then reads back that value. -/
theorem gpu_memory_concrete_entry :
    collectGPUMetricsWith (fun p => if p = "1234" then some "42" else none)
        (some "gpu-uuid-1, 0, \"GPUX\", 37") (some "1234, 512 MiB, gpu-uuid-1")
      = [⟨⟨.gpuMemoryUsageBytes, "0", "42"⟩, 536870912⟩] ∧
    lookupMetric
        (applyWrites initStore
          (collectGPUMetricsWith (fun p => if p = "1234" then some "42" else none)
            (some "gpu-uuid-1, 0, \"GPUX\", 37") (some "1234, 512 MiB, gpu-uuid-1")))
        ⟨.gpuMemoryUsageBytes, "0", "42"⟩ = some 536870912 :=
  ⟨by with_unfolding_all rfl, by with_unfolding_all rfl⟩

/-- C5: a `job_*` directory whose `cgroup.procs` holds zero whitespace-separated
entries publishes exactly one `io_read_bytes` write and one `io_write_bytes`
write, both 0, under the sentinel pid label `"none"`, rather than being
omitted. -/
theorem empty_job_zero_io_entries (ioFiles : String → Option String)
    (jd : JobDir) (s : String)
    (hname : goStartsWith jd.name "job_" = true)
    (hprocs : jd.cgroupProcs = some s)
    (hempty : goFields s = []) :
    jobIOWrites ioFiles jd
      = [⟨⟨.ioReadBytes, "none", jd.name⟩, 0⟩,
         ⟨⟨.ioWriteBytes, "none", jd.name⟩, 0⟩] := by
  simp only [jobIOWrites, hname, hprocs, hempty, if_true]

/-- C5 witness: job `job_7` with an empty `cgroup.procs`. -/
theorem empty_job_zero_io_entries_checked :
    jobIOWrites (fun _ => none) ⟨"job_7", some ""⟩
      = [⟨⟨.ioReadBytes, "none", "job_7"⟩, 0⟩,
         ⟨⟨.ioWriteBytes, "none", "job_7"⟩, 0⟩] :=
  empty_job_zero_io_entries (fun _ => none) ⟨"job_7", some ""⟩ ""
    (by with_unfolding_all rfl) rfl (by with_unfolding_all rfl)

/-- C6: every write of an I/O-record line carries the `io_read_bytes` or
`io_write_bytes` name; a `key: value` line with any other key publishes
nothing; and the concrete record `rchar: 100\nread_bytes: 4096\nwrite_bytes: 0`
publishes exactly the read and write values. -/
theorem io_keys_filtered :
    (∀ pid jobEntry line : String,
        (ioLineWrites pid jobEntry line).all
          (fun w => w.key.name == MetricName.ioReadBytes ||
                    w.key.name == MetricName.ioWriteBytes) = true) ∧
    (∀ pid jobEntry line k v : String,
        splitGo ":" line = [k, v] →
        goTrimSpace k ≠ "read_bytes" →
        goTrimSpace k ≠ "write_bytes" →
        ioLineWrites pid jobEntry line = []) ∧
    (∀ pid jobEntry : String,
        ioContentWrites pid jobEntry
            (splitGo "\n" "rchar: 100\nread_bytes: 4096\nwrite_bytes: 0")
          = [⟨⟨.ioReadBytes, pid, jobEntry⟩, 4096⟩,
             ⟨⟨.ioWriteBytes, pid, jobEntry⟩, 0⟩]) := by
  refine ⟨?_, ?_, ?_⟩
  · intro pid jobEntry line
    unfold ioLineWrites
    split
    · split
      · rfl
      · dsimp only
        split
        · rfl
        · split
          · rfl
          · rfl
    · rfl
  · intro pid jobEntry line k v hsplit hk1 hk2
    cases hp : parseGoFloat (goTrimSpace v) with
    | none => simp only [ioLineWrites, hsplit, hp]
    | some q => simp only [ioLineWrites, hsplit, hp, if_neg hk1, if_neg hk2]
  · intro pid jobEntry
    with_unfolding_all rfl

/-- C6 witness: the `rchar: 100` line publishes nothing. -/
theorem io_keys_filtered_checked :
    ioLineWrites "9" "job_5" "rchar: 100" = [] :=
  io_keys_filtered.2.1 "9" "job_5" "rchar: 100" "rchar" " 100"
    (by with_unfolding_all rfl) (by decide) (by decide)

/-- C7: removing a malformed row (wrong field count or non-numeric memory)
from a compute-apps batch does not change the writes of the batch: the rows
before and after it are published exactly as without it. -/
theorem malformed_row_skipped (m r : String → Option String)
    (before after : List String) (bad : String)
    (hbad : malformedComputeRow bad = true) :
    computeWrites m r (before ++ bad :: after)
      = computeWrites m r (before ++ after) := by
  have hb : computeLineWrites m r bad = [] := computeLineWrites_of_malformed m r bad hbad
  rw [computeWrites_append, computeWrites_append]
  simp [computeWrites, hb]

/-- C7 witness: a two-field row between two well-formed rows is skipped
without affecting them. -/
theorem malformed_row_skipped_checked :
    computeWrites (buildUUIDToIndex ["gpu-uuid-1, 0, GPUX, 37"])
        (fun p => if p = "1234" then some "42" else none)
        (["1234, 512 MiB, gpu-uuid-1"] ++ "512 MiB, gpu-uuid-1" :: ["4321, 1 MiB, gpu-uuid-1"])
      = computeWrites (buildUUIDToIndex ["gpu-uuid-1, 0, GPUX, 37"])
          (fun p => if p = "1234" then some "42" else none)
          (["1234, 512 MiB, gpu-uuid-1"] ++ ["4321, 1 MiB, gpu-uuid-1"]) :=
  malformed_row_skipped _ _ _ _ _ (by with_unfolding_all rfl)

/-- C8: if either accelerator query fails (`none`), the accelerator step of
that cycle produces no write at all, and applying its (empty) writes leaves
every previously published value in the store unchanged. -/
theorem query_failure_skips_cycle (resolver : String → Option String)
    (g c : Option String) (store : MetricStore)
    (h : g = none ∨ c = none) :
    collectGPUMetricsWith resolver g c = [] ∧
    applyWrites store (collectGPUMetricsWith resolver g c) = store := by
  have hw : collectGPUMetricsWith resolver g c = [] := by
    rcases h with rfl | rfl
    · rfl
    · cases g <;> rfl
  refine ⟨hw, ?_⟩
  rw [hw]
  rfl

/-- C8 witness: the device query succeeded but the compute-apps query failed;
the seeded store is untouched. -/
theorem query_failure_skips_cycle_checked :
    collectGPUMetricsWith (fun _ => none) (some "gpu-uuid-1, 0, GPUX, 37") none = [] ∧
    applyWrites initStore
        (collectGPUMetricsWith (fun _ => none) (some "gpu-uuid-1, 0, GPUX, 37") none)
      = initStore :=
  query_failure_skips_cycle (fun _ => none) (some "gpu-uuid-1, 0, GPUX, 37") none
    initStore (Or.inr rfl)

/-- C10: the used-memory field is converted by `strings.Trim(_, " MiB")`
followed by decimal parsing and multiplication by 1024·1024: a row whose
trimmed field does not parse is skipped entirely, a row whose trimmed field
parses as `q` is published as `q` MiB in bytes regardless of the original
suffix; concretely, `512 KiB` trims to `512 K` and `[N/A]` stays unparseable
(both skipped), while `512 MB` trims to the parseable `512`. -/
theorem memory_unit_handling :
    (∀ (m r : String → Option String) (line pid mem uuid : String),
        splitGo ", " line = [pid, mem, uuid] →
        parseGoFloat (goTrim mem " MiB") = none →
        computeLineWrites m r line = []) ∧
    (∀ (m r : String → Option String) (line pid mem uuid idx jobID : String) (q : ℚ),
        splitGo ", " line = [pid, mem, uuid] →
        parseGoFloat (goTrim mem " MiB") = some q →
        m uuid = some idx →
        r pid = some jobID →
        computeLineWrites m r line
          = [⟨⟨.gpuMemoryUsageBytes, idx, jobID⟩, q * 1024 * 1024⟩]) ∧
    goTrim "512 KiB" " MiB" = "512 K" ∧
    parseGoFloat "512 K" = none ∧
    parseGoFloat (goTrim "[N/A]" " MiB") = none ∧
    goTrim "2 GiB" " MiB" = "2 G" ∧
    goTrim "512 MB" " MiB" = "512" ∧
    parseGoFloat "512" = some 512 := by
  refine ⟨?_, ?_, by with_unfolding_all rfl, by with_unfolding_all rfl,
    by with_unfolding_all rfl, by with_unfolding_all rfl,
    by with_unfolding_all rfl, by with_unfolding_all rfl⟩
  · intro m r line pid mem uuid hsplit hparse
    simp only [computeLineWrites, hsplit, hparse]
  · intro m r line pid mem uuid idx jobID q hsplit hparse hm hr
    simp only [computeLineWrites, hsplit, hparse, hm, hr]

/-- C10 witness: the `[N/A]` row publishes nothing, and a `512 MB` row is
published as if the value were MiB. -/
theorem memory_unit_handling_checked :
    computeLineWrites (fun u => if u = "gpu-uuid-1" then some "0" else none)
        (fun p => if p = "1234" then some "42" else none) "1234, [N/A], gpu-uuid-1"
      = [] ∧
    computeLineWrites (fun u => if u = "gpu-uuid-1" then some "0" else none)
        (fun p => if p = "1234" then some "42" else none) "1234, 512 MB, gpu-uuid-1"
      = [⟨⟨.gpuMemoryUsageBytes, "0", "42"⟩, (512 : ℚ) * 1024 * 1024⟩] := by
  constructor
  · exact memory_unit_handling.1 _ _ _ "1234" "[N/A]" "gpu-uuid-1"
      (by with_unfolding_all rfl) (by with_unfolding_all rfl)
  · exact memory_unit_handling.2.1 _ _ _ "1234" "512 MB" "gpu-uuid-1" "0" "42" 512
      (by with_unfolding_all rfl) (by with_unfolding_all rfl)
      (by with_unfolding_all rfl) (by with_unfolding_all rfl)

end JobMetrics
